import Mathlib

/-!
Verification development for the mcp-server-git request-dispatch / review-gate layer.

The repository ships two near-identical JSON-RPC-over-stdio servers:
a single-instance variant (the second half of `start-server.js`, i.e. `server-final.js`)
and a multi-instance variant (`src/unnamed/part_001`, i.e. `server-muit-final.js`).
Both keep three pieces of process-wide mutable state — `pendingChanges`,
`pushHistory` and the boolean `changesReviewed` — plus two persisted JSON files
(pending changes and push history).

This file gives a shallow embedding of that state machine.  External effects are
made explicit: the wall clock becomes `now`/`ts` parameters, the git subprocess
becomes an oracle `env : List String → CmdOutcome` mapping an argument vector to
its outcome, and the two JSON files become `Option Json` fields of the state.
Operation-log persistence (an append-only text log) is not modelled; no claim
touches it.
-/

namespace MCPGit

/-- JavaScript-like parameter values, as far as the modelled handlers inspect
them (`undefined`, `null`, booleans, numbers, strings, arrays). -/
inductive JsVal where
  | undef
  | null
  | bool (b : Bool)
  | num (n : Int)
  | str (s : String)
  | arr (xs : List JsVal)

/-- Is the value JS `undefined`? -/
def JsVal.isUndef : JsVal → Bool
  | .undef => true
  | _ => false

/-- JavaScript truthiness of a `JsVal`. -/
def truthy : JsVal → Bool
  | .undef => false
  | .null => false
  | .bool b => b
  | .num n => n != 0
  | .str s => s != ""
  | .arr _ => true

/-- Strict equality `v === s` for a string `s` (strict equality against a JS value). -/
def jsEqStr (v : JsVal) (s : String) : Bool :=
  match v with
  | .str t => t == s
  | _ => false

/-- The value `v` if it is a string, else `none` (`typeof v === 'string'`). -/
def jsStrOf : JsVal → Option String
  | .str s => some s
  | _ => none

/-- JS `x || d` on an optional string: absent or empty falls back to the default. -/
def jsOr (v : Option String) (d : String) : String :=
  match v with
  | some s => if s = "" then d else s
  | none => d

/-- JavaScript `Array.prototype.slice(s, e)`: negative indices count from the
end, out-of-range indices clamp. -/
def jsSlice {α : Type} (l : List α) (s e : Int) : List α :=
  let len : Int := l.length
  let a := (if s < 0 then len + s else s).toNat
  let b := (if e < 0 then len + e else e).toNat
  (l.drop a).take (b - a)

/-- Does `s` contain `pat` as a substring (JS `String.prototype.includes`)?
Implemented over character lists so that proofs can evaluate it. -/
def startsWithL : List Char → List Char → Bool
  | _, [] => true
  | [], _ :: _ => false
  | a :: as, b :: bs => a = b && startsWithL as bs

def containsSubL (pat : List Char) : List Char → Bool
  | [] => pat.isEmpty
  | c :: rest => startsWithL (c :: rest) pat || containsSubL pat rest

def includesSub (s pat : String) : Bool :=
  containsSubL pat.data s.data

/-- JS `String.prototype.startsWith`. -/
def strStartsWith (s t : String) : Bool :=
  startsWithL s.data t.data

/-- JS `String.prototype.substring(n)` (drop the first `n` characters). -/
def strDrop (s : String) (n : Nat) : String :=
  ⟨s.data.drop n⟩

/-- JS `String.prototype.trim`: strip whitespace from both ends. -/
def trimL (cs : List Char) : List Char :=
  ((cs.dropWhile Char.isWhitespace).reverse.dropWhile Char.isWhitespace).reverse

def jsTrim (s : String) : String :=
  ⟨trimL s.data⟩

/-- JS `String.prototype.split(sep)` for a single-character separator. -/
def splitCharAux (sep : Char) : List Char → List Char → List (List Char)
  | [], acc => [acc.reverse]
  | c :: rest, acc =>
    if c = sep then acc.reverse :: splitCharAux sep rest []
    else splitCharAux sep rest (c :: acc)

def jsSplitLines (s : String) : List String :=
  (splitCharAux '\n' s.data []).map fun cs => ⟨cs⟩

/-- Split at every whitespace character (used with an empty-token filter to
model `split(/\s+/)` on a trimmed string). -/
def splitWsAux : List Char → List Char → List (List Char)
  | [], acc => [acc.reverse]
  | c :: rest, acc =>
    if c.isWhitespace then acc.reverse :: splitWsAux rest []
    else splitWsAux rest (c :: acc)

def jsSplitWs (s : String) : List String :=
  ((splitWsAux s.data []).map fun cs => (⟨cs⟩ : String)).filter (· ≠ "")

/-- JSON values: the "durable JSON blob" the two persisted files hold.
`JSON.stringify` is deterministic on these, so file content is identified
with the `Json` value it prints. -/
inductive Json where
  | null
  | bool (b : Bool)
  | num (n : Int)
  | str (s : String)
  | arr (xs : List Json)
  | obj (fields : List (String × Json))

/-- A pending change entry, as built by `save_changes`
(`src/unnamed/part_001` lines 401-409, `start-server.js` lines 520-528). -/
structure PendingChange where
  id : Int
  timestamp : String
  repo_name : String
  project_path : String
  files : List String
  content : String
  reviewed : Bool
deriving DecidableEq, Repr

/-- A push history entry, as built by `recordPushHistory`
(`src/unnamed/part_001` lines 117-138). -/
structure PushHistoryEntry where
  id : Int
  timestamp : String
  repo_name : String
  project_path : String
  remote_name : String
  local_branch : String
  remote_branch : String
  message : String
  success : Bool
  error : Option String
  exit_code : Option Int
deriving DecidableEq, Repr

/-- One entry of the multi-instance startup table `MULTI_INSTANCE`
(the fields the dispatcher and handlers read). -/
structure InstanceConfig where
  REPO_NAME : String
  PROJECT_PATH : String
  LOCAL_BRANCH : String
  REMOTE_BRANCH : String
  LANGUAGE : String := ""
deriving DecidableEq, Repr

/-- The `toolContext` object passed to handlers by the multi-instance
dispatcher; absent fields are `none` (JS `undefined`). -/
structure ToolContext where
  PROJECT_PATH : Option String := none
  REPO_NAME : Option String := none
  LOCAL_BRANCH : Option String := none
  REMOTE_BRANCH : Option String := none
  LANGUAGE : Option String := none
  REMOTE_NAME : Option String := none
  PULL_SOURCE_BRANCH : Option String := none
  GIT_PUSH_FLAGS : Option String := none
deriving DecidableEq, Repr

/-- The process-wide mutable state plus the two persisted JSON files. -/
structure ServerState where
  pendingChanges : List PendingChange
  pushHistory : List PushHistoryEntry
  changesReviewed : Bool
  pendingChangesFile : Option Json := none
  pushHistoryFile : Option Json := none

def MAX_PUSH_HISTORY : Nat := 100
def MAX_PENDING_CHANGES : Nat := 50

/-! ## Persistence (`savePendingChanges` / `loadPendingChanges`,
`savePushHistory` / `loadPushHistory`)

`JSON.stringify` writes each entry as an object with its fields in insertion
order; `JSON.parse` at reload yields objects of the same shape, which the code
splices back into the in-memory array without validation.  The encoders below
mirror the written shape; the decoders read exactly that shape back (the claims
about reload quantify only over files the save routines produced). -/

def pendingChangeToJson (c : PendingChange) : Json :=
  .obj [("id", .num c.id), ("timestamp", .str c.timestamp),
        ("repo_name", .str c.repo_name), ("project_path", .str c.project_path),
        ("files", .arr (c.files.map Json.str)), ("content", .str c.content),
        ("reviewed", .bool c.reviewed)]

def decodeStrList : List Json → Option (List String)
  | [] => some []
  | .str s :: rest => (decodeStrList rest).map (s :: ·)
  | _ => none

def pendingChangeOfJson : Json → Option PendingChange
  | .obj [("id", .num id), ("timestamp", .str ts),
          ("repo_name", .str rn), ("project_path", .str pp),
          ("files", .arr fs), ("content", .str ct),
          ("reviewed", .bool rv)] =>
    (decodeStrList fs).map fun files =>
      { id := id, timestamp := ts, repo_name := rn, project_path := pp,
        files := files, content := ct, reviewed := rv }
  | _ => none

def decodeOptStr : Json → Option (Option String)
  | .null => some none
  | .str s => some (some s)
  | _ => none

def decodeOptInt : Json → Option (Option Int)
  | .null => some none
  | .num n => some (some n)
  | _ => none

def jsonOfOptStr : Option String → Json
  | none => .null
  | some s => .str s

def jsonOfOptInt : Option Int → Json
  | none => .null
  | some n => .num n

def pushEntryToJson (p : PushHistoryEntry) : Json :=
  .obj [("id", .num p.id), ("timestamp", .str p.timestamp),
        ("repo_name", .str p.repo_name), ("project_path", .str p.project_path),
        ("remote_name", .str p.remote_name), ("local_branch", .str p.local_branch),
        ("remote_branch", .str p.remote_branch), ("message", .str p.message),
        ("success", .bool p.success), ("error", jsonOfOptStr p.error),
        ("exit_code", jsonOfOptInt p.exit_code)]

def pushEntryOfJson : Json → Option PushHistoryEntry
  | .obj [("id", .num id), ("timestamp", .str ts),
          ("repo_name", .str rn), ("project_path", .str pp),
          ("remote_name", .str rm), ("local_branch", .str lb),
          ("remote_branch", .str rb), ("message", .str msg),
          ("success", .bool sc), ("error", e), ("exit_code", x)] =>
    match decodeOptStr e, decodeOptInt x with
    | some err, some code =>
      some { id := id, timestamp := ts, repo_name := rn, project_path := pp,
             remote_name := rm, local_branch := lb, remote_branch := rb,
             message := msg, success := sc, error := err, exit_code := code }
    | _, _ => none
  | _ => none

def decodeList {α : Type} (dec : Json → Option α) : List Json → Option (List α)
  | [] => some []
  | j :: rest =>
    match dec j with
    | some a => (decodeList dec rest).map (a :: ·)
    | none => none

/-- Model of `savePendingChanges`: rewrite the pending-changes file with the current
in-memory list. -/
def savePendingChanges (st : ServerState) : ServerState :=
  { st with pendingChangesFile := some (.arr (st.pendingChanges.map pendingChangeToJson)) }

/-- Model of `loadPendingChanges`: if the file exists, replace the in-memory list with
its parsed content (errors are swallowed, leaving the state unchanged). -/
def loadPendingChanges (st : ServerState) : ServerState :=
  match st.pendingChangesFile with
  | some (.arr js) =>
    match decodeList pendingChangeOfJson js with
    | some l => { st with pendingChanges := l }
    | none => st
  | _ => st

/-- Model of `clearPendingChanges`: empty the list and persist. -/
def clearPendingChanges (st : ServerState) : ServerState :=
  savePendingChanges { st with pendingChanges := [] }

/-- Model of `savePushHistory`: rewrite the push-history file. -/
def savePushHistory (st : ServerState) : ServerState :=
  { st with pushHistoryFile := some (.arr (st.pushHistory.map pushEntryToJson)) }

/-- Model of `loadPushHistory`: if the file exists, replace the in-memory history. -/
def loadPushHistory (st : ServerState) : ServerState :=
  match st.pushHistoryFile with
  | some (.arr js) =>
    match decodeList pushEntryOfJson js with
    | some l => { st with pushHistory := l }
    | none => st
  | _ => st

/-! ## Subprocess oracle (`executeGitCommand`) -/

/-- What a completed git subprocess resolved with (exit code 0). -/
structure CmdResult where
  stdout : String
  stderr : String
  exitCode : Int
deriving DecidableEq, Repr

/-- Outcome of one `executeGitCommand` call: resolve on exit 0, reject with the
captured output on a nonzero exit, reject with a bare message on spawn error or
timeout. -/
inductive CmdOutcome where
  | ok (r : CmdResult)
  | fail (r : CmdResult)
  | procErr (msg : String)
deriving DecidableEq, Repr

/-- JS `err.error || err.message` for a rejection. -/
def CmdOutcome.errMsg : CmdOutcome → String
  | .ok _ => ""
  | .fail r => "Command exited with code " ++ toString r.exitCode
  | .procErr m => m

/-! ## `recordPushHistory` -/

/-- Model of `recordPushHistory(message, result, error, repoName, toolContext)`
(`src/unnamed/part_001` lines 117-138): prepend an entry, cap at
`MAX_PUSH_HISTORY`, persist.  `now`/`ts` stand for `Date.now()` /
`new Date().toISOString()`. -/
def recordPushHistory (now : Int) (ts : String) (message : String)
    (result : Option CmdResult) (error : Option String) (repoName : String)
    (toolContext : ToolContext) (st : ServerState) : ServerState :=
  let pushEntry : PushHistoryEntry :=
    { id := now, timestamp := ts, repo_name := repoName,
      project_path := jsOr toolContext.PROJECT_PATH "",
      remote_name := jsOr toolContext.REMOTE_NAME "origin",
      local_branch := jsOr toolContext.LOCAL_BRANCH "",
      remote_branch := jsOr toolContext.REMOTE_BRANCH "",
      message := message,
      success := match error with | none => true | some e => decide (e = ""),
      error := match error with | none => none | some e => if e = "" then none else some e,
      exit_code := result.map (·.exitCode) }
  savePushHistory
    { st with pushHistory := List.take MAX_PUSH_HISTORY (pushEntry :: st.pushHistory) }

/-! ## `git_push` (`src/unnamed/part_001` lines 203-322) -/

/-- The structured soft-block payload returned when pushing unreviewed
changes (`isError:true`, `errorCode:'CHANGES_NOT_REVIEWED'`). -/
structure GuidancePayload where
  contentTexts : List String
  isError : Bool
  errorCode : String
deriving DecidableEq, Repr

/-- The success payload of `git_push`. -/
structure PushSuccessPayload where
  success : Bool
  repo_name : String
  project_path : String
  remote_name : String
  local_branch : String
  remote_branch : String
  git_push_flags : String
  message : String
  cleared_changes : Nat
  review_status_reset : Bool
  output : String
  error_output : String
  exit_code : Int
deriving DecidableEq, Repr

inductive GitPushResult where
  | blocked (payload : GuidancePayload)
  | pushed (payload : PushSuccessPayload)
  | thrown (msg : String)
deriving DecidableEq, Repr

def GitPushResult.isBlocked : GitPushResult → Bool
  | .blocked _ => true
  | _ => false

/-- The eight guidance texts of the soft-block payload (decorative emoji
prefixes of the source strings are omitted; braces are escaped). -/
def guidanceTexts (getPendingChangesToolName repoName : String) (numPending : Nat) :
    List String :=
  [ "ERROR: You must review pending changes before pushing code.",
    "REQUIRED ACTION: You must call the get_pending_changes tool to review pending changes.",
    "TOOL NAME: \"" ++ getPendingChangesToolName ++ "\" - Use this tool to review pending changes.",
    "TOOL CALL EXAMPLE: Call tools/call with name=\"" ++ getPendingChangesToolName ++
      "\" and arguments: \x7b\"repo\": \"" ++ repoName ++ "\", \"limit\": 1000\x7d",
    "STEP 1: Call \"" ++ getPendingChangesToolName ++ "\" tool to review all pending changes.",
    "STEP 2: After reviewing, you can then call git_push tool to proceed with the push.",
    "IMPORTANT: The review status will be reset after push attempt. You may need to review again for subsequent pushes.",
    "Current pending changes: " ++ toString numPending ++ " change(s)." ]

/-- Model of `git_push(params, toolContext)` of the multi-instance server.

  * `env` is the subprocess oracle, `now`/`ts` the clock;
  * `toolPfx` is the `TOOL_PREFIX` configuration (renamed for this file);
  * the third component of the result lists the git argument vectors the
    call handed to `executeGitCommand`, in order.

Control flow translated from the source: message validation, then the review
gate, then a best-effort status/add/commit phase whose failures are swallowed
(they only decide whether `git add .` runs, and how often), then the push
subprocess, which alone is fatal.  On success the pending list is cleared and
the gate reset; on push failure only the gate is reset.  Note the success
payload reads `pendingChanges.length` after `clearPendingChanges()`. -/
def git_push (env : List String → CmdOutcome) (now : Int) (ts : String)
    (message : Option String) (toolContext : ToolContext) (toolPfx : String)
    (st : ServerState) : GitPushResult × ServerState × List (List String) :=
  let remoteName := jsOr toolContext.REMOTE_NAME "origin"
  let localBranch := jsOr toolContext.LOCAL_BRANCH "main"
  let remoteBranch := jsOr toolContext.REMOTE_BRANCH "main"
  let projectPath := jsOr toolContext.PROJECT_PATH ""
  let repoName := jsOr toolContext.REPO_NAME ""
  let gitPushFlags := jsOr toolContext.GIT_PUSH_FLAGS "--progress"
  match message with
  | none => (.thrown "Missing message parameter", st, [])
  | some msg =>
    if msg = "" then (.thrown "Missing message parameter", st, [])
    else
      let getPendingChangesToolName :=
        if toolPfx ≠ "" then toolPfx ++ "_get_pending_changes" else "get_pending_changes"
      if !st.changesReviewed && decide (st.pendingChanges.length > 0) then
        (.blocked { contentTexts := guidanceTexts getPendingChangesToolName repoName
                      st.pendingChanges.length,
                    isError := true, errorCode := "CHANGES_NOT_REVIEWED" }, st, [])
      else
        let statusArgs := ["status", "--porcelain"]
        let addArgs := ["add", "."]
        let stagingCalls :=
          match env statusArgs with
          | .ok r =>
            let hasStagedChanges := (jsSplitLines r.stdout).any fun line =>
              strStartsWith line "A " || strStartsWith line "M " || strStartsWith line "D "
            if hasStagedChanges then [statusArgs]
            else
              match env addArgs with
              | .ok _ => [statusArgs, addArgs]
              | _ => [statusArgs, addArgs, addArgs]
          | _ => [statusArgs, addArgs]
        let commitArgs := ["commit", "-m", msg]
        let pushFlags :=
          if jsTrim gitPushFlags ≠ "" then jsSplitWs (jsTrim gitPushFlags)
          else []
        let pushArgs := ["push", remoteName, localBranch ++ ":" ++ remoteBranch] ++ pushFlags
        let calls := stagingCalls ++ [commitArgs, pushArgs]
        match env pushArgs with
        | .ok result =>
          let st1 := recordPushHistory now ts msg (some result) none repoName toolContext st
          let st2 := clearPendingChanges st1
          let st3 := { st2 with changesReviewed := false }
          (.pushed { success := true, repo_name := repoName, project_path := projectPath,
                     remote_name := remoteName, local_branch := localBranch,
                     remote_branch := remoteBranch, git_push_flags := gitPushFlags,
                     message := msg,
                     cleared_changes := st3.pendingChanges.length,
                     review_status_reset := true, output := result.stdout,
                     error_output := result.stderr, exit_code := result.exitCode },
           st3, calls)
        | .fail r =>
          let st1 := { st with changesReviewed := false }
          let e := CmdOutcome.errMsg (.fail r)
          let st2 := recordPushHistory now ts msg none (some e) repoName toolContext st1
          (.thrown ("Git push failed: " ++ e), st2, calls)
        | .procErr m =>
          let st1 := { st with changesReviewed := false }
          let st2 := recordPushHistory now ts msg none (some m) repoName toolContext st1
          (.thrown ("Git push failed: " ++ m), st2, calls)

/-! ## `save_changes` (`src/unnamed/part_001` lines 358-431,
`start-server.js` lines 503-553) -/

inductive SaveChangesResult where
  | reviewOk (changes : List PendingChange) (total : Nat)
  | saved (change_id : Int) (files_count : Nat) (content_length : Nat) (total_pending : Nat)
  | thrown (msg : String)
deriving DecidableEq, Repr

/-- Per-element check `typeof file === 'string' && file.trim()` of
`files.every(...)`. -/
def fileArgOk : JsVal → Bool
  | .str s => jsTrim s ≠ ""
  | _ => false

/-- The validate-and-create part shared verbatim by both variants
(`start-server.js` lines 506-552, `src/unnamed/part_001` lines 389-430). -/
def saveChangesCreate (repoName projectPath : String) (files content : JsVal)
    (now : Int) (ts : String) (st : ServerState) : SaveChangesResult × ServerState :=
  match files with
  | .arr xs =>
    if xs.length = 0 then (.thrown "files parameter must be a non-empty array", st)
    else
      match jsStrOf content with
      | none => (.thrown "content parameter must be a non-empty string", st)
      | some c =>
        if c = "" then (.thrown "content parameter must be a non-empty string", st)
        else if !(xs.all fileArgOk) then
          (.thrown "all files must be non-empty strings", st)
        else
          let changeEntry : PendingChange :=
            { id := now, timestamp := ts, repo_name := repoName,
              project_path := projectPath,
              files := xs.filterMap (fun f => (jsStrOf f).map jsTrim),
              content := jsTrim c, reviewed := false }
          let newPending := List.take MAX_PENDING_CHANGES (changeEntry :: st.pendingChanges)
          let st1 := { st with pendingChanges := newPending }
          let st2 := savePendingChanges st1
          (.saved now xs.length c.length st2.pendingChanges.length, st2)
  | _ => (.thrown "files parameter must be a non-empty array", st)

/-- Model of `save_changes(params, toolContext)` of the multi-instance server.  When
`repo` is truthy and both `files` and `content` are absent, the call is a
review query: it filters by repository, marks the process-wide gate reviewed,
and returns a slice — it does not validate `files`/`content`. -/
def save_changes (multi : List InstanceConfig) (files content repo : JsVal)
    (limit : Option Int) (toolContext : ToolContext) (now : Int) (ts : String)
    (st : ServerState) : SaveChangesResult × ServerState :=
  let repoName := jsOr toolContext.REPO_NAME ""
  let limitV := limit.getD 1000
  if truthy repo && files.isUndef && content.isUndef then
    let filteredChanges :=
      if truthy repo && decide (multi.length > 0) then
        match multi.find? (fun i => jsEqStr repo i.REPO_NAME) with
        | some targetInstance =>
          st.pendingChanges.filter (fun c => c.project_path == targetInstance.PROJECT_PATH)
        | none => st.pendingChanges
      else st.pendingChanges
    let st1 := { st with changesReviewed := true }
    let changes := jsSlice filteredChanges 0 limitV
    (.reviewOk changes filteredChanges.length, st1)
  else
    saveChangesCreate repoName (jsOr toolContext.PROJECT_PATH "") files content now ts st

/-- Model of `save_changes(params)` of the single-instance server (`start-server.js`
lines 503-553): no review-query branch, context from the environment. -/
def save_changes_single (files content : JsVal) (REPO_NAME PROJECT_PATH : String)
    (now : Int) (ts : String) (st : ServerState) : SaveChangesResult × ServerState :=
  saveChangesCreate REPO_NAME PROJECT_PATH files content now ts st

/-! ## `get_pending_changes` (`src/unnamed/part_001` lines 433-473) -/

structure PendingChangesPage where
  changes : List PendingChange
  total : Nat
  limit : Int
  offset : Int
  hasMore : Bool
deriving DecidableEq, Repr

inductive GetPendingChangesResult where
  | ok (page : PendingChangesPage)
  | thrown (msg : String)
deriving DecidableEq, Repr

/-- Model of `get_pending_changes(params, toolContext)`: validate `limit`/`offset`,
filter by repository when one is named and the startup table is non-empty,
set the process-wide `changesReviewed` flag, return a slice. -/
def get_pending_changes (multi : List InstanceConfig) (limit offset : Option Int)
    (repo : Option String) (st : ServerState) :
    GetPendingChangesResult × ServerState :=
  let limitV := limit.getD 1000
  let offsetV := offset.getD 0
  if limitV < 1 || limitV > 1000 then
    (.thrown "limit parameter must be between 1-1000", st)
  else if offsetV < 0 then
    (.thrown "offset parameter must be greater than or equal to 0", st)
  else
    let filteredChanges :=
      match repo with
      | some r =>
        if r ≠ "" && decide (multi.length > 0) then
          match multi.find? (fun i => i.REPO_NAME == r) with
          | some targetInstance =>
            st.pendingChanges.filter (fun c => c.project_path == targetInstance.PROJECT_PATH)
          | none => st.pendingChanges
        else st.pendingChanges
      | none => st.pendingChanges
    let st1 := { st with changesReviewed := true }
    let changes := jsSlice filteredChanges offsetV (offsetV + limitV)
    (.ok { changes := changes, total := filteredChanges.length, limit := limitV,
           offset := offsetV,
           hasMore := decide (offsetV + limitV < (filteredChanges.length : Int)) }, st1)

/-! ## `tools/call` dispatch (`src/unnamed/part_001` lines 1052-1137)

The dispatcher strips the configured tool-name prefix, probes
`this[actualMethodName]` for truthiness, resolves the repository context, and
invokes whatever member the probe found.  The outer catch of `handleRequest`
maps a thrown message to a JSON-RPC error code by substring matching. -/

/-- Callable members of the `FinalMCPServer` class (its methods, advertised
tools and internal ones alike). -/
inductive ToolMethod where
  | git_pull | git_push | get_push_history | get_operation_logs | save_changes
  | get_pending_changes | git_status | git_diff | git_add | git_log | set_log_dir
  | executeGitCommand | handleRequest | start
deriving DecidableEq, Repr

/-- A property of the server object as seen by `this[actualMethodName]`. -/
inductive ServerProp where
  | strProp (s : String)
  | boolProp (b : Bool)
  | methodProp (m : ToolMethod)
deriving DecidableEq, Repr

/-- JS truthiness of a server property. -/
def truthyProp : ServerProp → Bool
  | .strProp s => s != ""
  | .boolProp b => b
  | .methodProp _ => true

/-- The own members of a `FinalMCPServer` instance (constructor fields `name`,
`version`, `initialized` plus the class methods).  Members inherited from
`Object.prototype` are not modelled; no claim mentions them. -/
def serverLookup (initialized : Bool) (s : String) : Option ServerProp :=
  if s = "name" then some (.strProp "mcp-git-server-multi")
  else if s = "version" then some (.strProp "1.0.0")
  else if s = "initialized" then some (.boolProp initialized)
  else if s = "git_pull" then some (.methodProp .git_pull)
  else if s = "git_push" then some (.methodProp .git_push)
  else if s = "get_push_history" then some (.methodProp .get_push_history)
  else if s = "get_operation_logs" then some (.methodProp .get_operation_logs)
  else if s = "save_changes" then some (.methodProp .save_changes)
  else if s = "get_pending_changes" then some (.methodProp .get_pending_changes)
  else if s = "git_status" then some (.methodProp .git_status)
  else if s = "git_diff" then some (.methodProp .git_diff)
  else if s = "git_add" then some (.methodProp .git_add)
  else if s = "git_log" then some (.methodProp .git_log)
  else if s = "set_log_dir" then some (.methodProp .set_log_dir)
  else if s = "executeGitCommand" then some (.methodProp .executeGitCommand)
  else if s = "handleRequest" then some (.methodProp .handleRequest)
  else if s = "start" then some (.methodProp .start)
  else none

/-- Is `this[s]` truthy? (`if (!this[actualMethodName]) throw ...` probes
truthiness, not presence.) -/
def lookupTruthy (initialized : Bool) (s : String) : Bool :=
  match serverLookup initialized s with
  | some p => truthyProp p
  | none => false

/-- Strip the configured prefix from a tool name
(`name.substring(TOOL_PREFIX.length + 1)` when it starts with `TOOL_PREFIX_`). -/
def actualMethodNameOf (toolPfx name : String) : String :=
  if toolPfx ≠ "" && strStartsWith name (toolPfx ++ "_") then
    strDrop name (toolPfx.length + 1)
  else name

/-- The `toolContext` built for a configured instance
(`src/unnamed/part_001` lines 1072-1078). -/
def ctxOfInstance (inst : InstanceConfig) : ToolContext :=
  { PROJECT_PATH := some inst.PROJECT_PATH, REPO_NAME := some inst.REPO_NAME,
    LOCAL_BRANCH := some inst.LOCAL_BRANCH, REMOTE_BRANCH := some inst.REMOTE_BRANCH,
    LANGUAGE := some (if inst.LANGUAGE = "" then "en" else inst.LANGUAGE) }

/-- How a `tools/call` request is routed, before the tool body runs. -/
inductive RouteOutcome where
  | missingName
  | unknownTool (name : String)
  | repoNotFound (repo : String)
  | invoked (m : ToolMethod) (ctx : ToolContext)
  | notFunction (name : String)
deriving DecidableEq, Repr

/-- The `tools/call` routing of the multi-instance `handleRequest`:
name check, prefix strip, truthiness probe of `this[actualMethodName]`,
repository-context resolution, then invocation.  `repoArg` is `args?.repo`. -/
def toolsCallRoute (multi : List InstanceConfig) (toolPfx : String)
    (initialized : Bool) (name : Option String) (repoArg : Option String) :
    RouteOutcome :=
  match name with
  | none => .missingName
  | some n =>
    if n = "" then .missingName
    else
      let actual := actualMethodNameOf toolPfx n
      match serverLookup initialized actual with
      | none => .unknownTool n
      | some p =>
        if truthyProp p then
          let resolved : Except String ToolContext :=
            match repoArg with
            | some r =>
              if r ≠ "" && decide (multi.length > 0) then
                match multi.find? (fun i => i.REPO_NAME == r) with
                | some targetInstance => .ok (ctxOfInstance targetInstance)
                | none => .error r
              else .ok {}
            | none => .ok {}
          match resolved with
          | .error r => .repoNotFound r
          | .ok ctx =>
            match p with
            | .methodProp m => .invoked m ctx
            | _ => .notFunction actual
        else .unknownTool n

/-- The message a routing failure throws. -/
def routeThrownMessage : RouteOutcome → Option String
  | .missingName => some "Missing tool name"
  | .unknownTool n => some ("Unknown tool: " ++ n)
  | .repoNotFound r => some ("Repository not found: " ++ r)
  | .notFunction _ => some "this[actualMethodName] is not a function"
  | .invoked _ _ => none

/-- The outer catch of `handleRequest` (`src/unnamed/part_001` lines
1120-1130): map a thrown message to a JSON-RPC error code by substring
matching; everything else is `-32603` (internal error). -/
def rpcErrorCode (msg : String) : Int :=
  if includesSub msg "Server not initialized" then -32002
  else if includesSub msg "Unknown method" then -32601
  else if includesSub msg "Unsupported JSON-RPC version" then -32600
  else -32603

/-- The JSON-RPC error envelope (code, message) produced when routing throws;
`none` when the tool body is reached. -/
def toolsCallErrorEnvelope (o : RouteOutcome) : Option (Int × String) :=
  (routeThrownMessage o).map fun m => (rpcErrorCode m, m)

/-- The validity condition `save_changes` enforces on `files`: a non-empty
array whose elements are strings that are non-empty after trimming. -/
def validFilesArg (files : JsVal) : Bool :=
  match files with
  | .arr xs => xs.length != 0 && xs.all fileArgOk
  | _ => false

/-- The validity condition `save_changes` enforces on `content`: a non-empty
string. -/
def validContentArg (content : JsVal) : Bool :=
  match content with
  | .str s => s != ""
  | _ => false

/-! # Theorems -/

/-- C1 (as stated, counterexample): a `git_push` call made while the gate is
false and the pending list non-empty, but with the `message` parameter absent,
throws `Missing message parameter` — the message validation runs before the
review gate — so the call yields a JSON-RPC error envelope, not a successful
result carrying `isError:true`/`CHANGES_NOT_REVIEWED`. -/
theorem C1_missing_message_cex :
    let st : ServerState :=
      { pendingChanges := [{ id := 1, timestamp := "t", repo_name := "",
                             project_path := "/p", files := ["a.txt"], content := "c",
                             reviewed := false }],
        pushHistory := [], changesReviewed := false }
    (git_push (fun _ => .ok ⟨"", "", 0⟩) 0 "t" none {} "" st).1
        = .thrown "Missing message parameter"
      ∧ st.changesReviewed = false ∧ st.pendingChanges.length = 1
      ∧ ((git_push (fun _ => .ok ⟨"", "", 0⟩) 0 "t" none {} "" st).1).isBlocked = false :=
  ⟨rfl, rfl, rfl, rfl⟩

/-- C1 (amended): for every `git_push` call whose `message` parameter is a
non-empty string, if the review gate is false and the pending list non-empty,
the call returns (not throws) the guidance payload with `isError:true` and
`errorCode` `CHANGES_NOT_REVIEWED`, invokes no git subprocess, and leaves the
state (in particular the pending list) unchanged. -/
theorem C1_push_gate_soft_block (env : List String → CmdOutcome) (now : Int)
    (ts : String) (msg : String) (ctx : ToolContext) (toolPfx : String)
    (st : ServerState) (hmsg : msg ≠ "") (hrev : st.changesReviewed = false)
    (hpend : st.pendingChanges ≠ []) :
    git_push env now ts (some msg) ctx toolPfx st =
      (.blocked { contentTexts := guidanceTexts
                    (if toolPfx ≠ "" then toolPfx ++ "_get_pending_changes"
                     else "get_pending_changes")
                    (jsOr ctx.REPO_NAME "") st.pendingChanges.length,
                  isError := true, errorCode := "CHANGES_NOT_REVIEWED" }, st, []) := by
  have hlen : 0 < st.pendingChanges.length := List.length_pos.mpr hpend
  unfold git_push
  simp [hmsg, hrev, hlen]

/-- Witness for `C1_push_gate_soft_block` at a concrete state. -/
theorem C1_push_gate_soft_block_witness :
    (git_push (fun _ => .ok ⟨"", "", 0⟩) 0 "t" (some "m") {} ""
      { pendingChanges := [{ id := 1, timestamp := "t", repo_name := "",
                             project_path := "/p", files := ["a.txt"], content := "c",
                             reviewed := false }],
        pushHistory := [], changesReviewed := false }).1.isBlocked = true := by
  rw [C1_push_gate_soft_block (fun _ => .ok ⟨"", "", 0⟩) 0 "t" "m" {} "" _
      (by decide) rfl (List.cons_ne_nil _ _)]
  rfl

/-- C2: every `git_push` call that proceeds past the soft-block check (valid
message, and gate true or pending list empty) ends with `changesReviewed =
false` whatever the push subprocess does; the pending list is cleared when the
push succeeds and left unchanged when it fails; and such a call is never
soft-blocked. -/
theorem C2_push_resets_gate (env : List String → CmdOutcome) (now : Int)
    (ts : String) (msg : String) (ctx : ToolContext) (toolPfx : String)
    (st : ServerState) (hmsg : msg ≠ "")
    (hgate : st.changesReviewed = true ∨ st.pendingChanges = []) :
    ((git_push env now ts (some msg) ctx toolPfx st).2.1.changesReviewed = false)
    ∧ (∀ p, (git_push env now ts (some msg) ctx toolPfx st).1 = .pushed p →
        (git_push env now ts (some msg) ctx toolPfx st).2.1.pendingChanges = [])
    ∧ (∀ m, (git_push env now ts (some msg) ctx toolPfx st).1 = .thrown m →
        (git_push env now ts (some msg) ctx toolPfx st).2.1.pendingChanges
          = st.pendingChanges)
    ∧ (∀ g, (git_push env now ts (some msg) ctx toolPfx st).1 ≠ .blocked g) := by
  have hgateb : (!st.changesReviewed && decide (st.pendingChanges.length > 0)) = false := by
    rcases hgate with h | h <;> simp [h]
  unfold git_push
  simp only [hmsg, hgateb, Bool.false_eq_true, if_false, ite_false, reduceIte]
  split <;>
    simp [recordPushHistory, savePushHistory, clearPendingChanges, savePendingChanges]

/-- Witness for `C2_push_resets_gate` at a concrete state. -/
theorem C2_push_resets_gate_witness :
    ((git_push (fun _ => .ok ⟨"", "", 0⟩) 0 "t" (some "m") {} ""
      { pendingChanges := [], pushHistory := [], changesReviewed := true }).2.1.changesReviewed
        = false) :=
  (C2_push_resets_gate (fun _ => .ok ⟨"", "", 0⟩) 0 "t" "m" {} "" _
      (by decide) (Or.inl rfl)).1

/-- C3: the spec scenario `save_changes(["a.txt"], "fix A")` →
`get_pending_changes()` (1 change, gate set) → successful `git_push("fix A")`.
The success payload has `review_status_reset = true`, but `cleared_changes = 0`,
not 1: the code reads `pendingChanges.length` *after* `clearPendingChanges()`
has emptied the list, so the field can never report the number of changes that
were cleared. -/
theorem C3_scenario_cleared_changes_zero :
    let st0 : ServerState :=
      { pendingChanges := [], pushHistory := [], changesReviewed := false }
    let st1 := (save_changes [] (.arr [.str "a.txt"]) (.str "fix A") .undef none {}
                  1 "t1" st0).2
    let g := get_pending_changes [] none none none st1
    let out := git_push (fun _ => .ok ⟨"", "", 0⟩) 2 "t2" (some "fix A") {} "" g.2
    (∃ p, g.1 = .ok p ∧ p.total = 1 ∧ p.changes.length = 1)
      ∧ g.2.changesReviewed = true
      ∧ (∃ q, out.1 = .pushed q ∧ q.success = true ∧ q.cleared_changes = 0
          ∧ q.cleared_changes ≠ 1 ∧ q.review_status_reset = true) :=
  ⟨⟨_, rfl, rfl, rfl⟩, rfl, ⟨_, rfl, rfl, rfl, by decide, rfl⟩⟩

/-- C4 (as stated, counterexample): a `tools/call` naming the unmatched tool
`bogus_tool` throws `Unknown tool: bogus_tool`; the outer catch maps that
message to `-32603` (internal error), not `-32601`, because only messages
containing `Unknown method` get `-32601` and the unknown-tool message does not
contain it. -/
theorem C4_unknown_tool_code_cex :
    toolsCallRoute [] "" true (some "bogus_tool") none = .unknownTool "bogus_tool"
      ∧ toolsCallErrorEnvelope (toolsCallRoute [] "" true (some "bogus_tool") none)
          = some (-32603, "Unknown tool: bogus_tool")
      ∧ (-32603 : Int) ≠ -32601 :=
  ⟨rfl, rfl, by decide⟩

/-- C4 (amended): a `tools/call` whose prefix-stripped name probes a falsy
member of the server object is rejected with `Unknown tool: <name>` and a
JSON-RPC error envelope whose code is `-32603` (internal error) — not
`-32601` — provided the resulting message does not happen to contain one of
the substrings (`Server not initialized`, `Unknown method`,
`Unsupported JSON-RPC version`) that the outer catch maps to other codes. -/
theorem C4_unknown_tool_internal_error (multi : List InstanceConfig)
    (toolPfx : String) (initialized : Bool) (n : String) (repoArg : Option String)
    (hn : n ≠ "")
    (hf : lookupTruthy initialized (actualMethodNameOf toolPfx n) = false)
    (h1 : includesSub ("Unknown tool: " ++ n) "Server not initialized" = false)
    (h2 : includesSub ("Unknown tool: " ++ n) "Unknown method" = false)
    (h3 : includesSub ("Unknown tool: " ++ n) "Unsupported JSON-RPC version" = false) :
    toolsCallRoute multi toolPfx initialized (some n) repoArg = .unknownTool n
      ∧ toolsCallErrorEnvelope (toolsCallRoute multi toolPfx initialized (some n) repoArg)
          = some (-32603, "Unknown tool: " ++ n) := by
  have hroute : toolsCallRoute multi toolPfx initialized (some n) repoArg
      = .unknownTool n := by
    unfold toolsCallRoute
    unfold lookupTruthy at hf
    cases hS : serverLookup initialized (actualMethodNameOf toolPfx n) with
    | none => simp [hn, hS]
    | some p =>
      rw [hS] at hf
      have hf' : truthyProp p = false := hf
      simp [hn, hS, hf']
  refine ⟨hroute, ?_⟩
  rw [hroute]
  simp [toolsCallErrorEnvelope, routeThrownMessage, rpcErrorCode, h1, h2, h3]

/-- Witness for `C4_unknown_tool_internal_error` at a concrete name. -/
theorem C4_unknown_tool_internal_error_witness :
    toolsCallErrorEnvelope (toolsCallRoute [] "" true (some "nope_tool") none)
      = some (-32603, "Unknown tool: nope_tool") :=
  (C4_unknown_tool_internal_error [] "" true "nope_tool" none
    (by decide) rfl rfl rfl rfl).2

/-- Invalid `files`/`content` make the shared validate-and-create path of
`save_changes` throw without touching the state. -/
theorem saveChangesCreate_invalid (rn pp : String) (files content : JsVal)
    (now : Int) (ts : String) (st : ServerState)
    (h : (validFilesArg files && validContentArg content) = false) :
    ∃ m, saveChangesCreate rn pp files content now ts st = (.thrown m, st) := by
  cases files with
  | arr xs =>
    by_cases hlen : xs.length = 0
    · refine ⟨"files parameter must be a non-empty array", ?_⟩
      unfold saveChangesCreate
      simp [hlen]
    · cases hc : jsStrOf content with
      | none =>
        refine ⟨"content parameter must be a non-empty string", ?_⟩
        unfold saveChangesCreate
        simp [hlen, hc]
      | some c =>
        by_cases hce : c = ""
        · refine ⟨"content parameter must be a non-empty string", ?_⟩
          unfold saveChangesCreate
          simp [hlen, hc, hce]
        · have hvc : validContentArg content = true := by
            cases content <;> simp [jsStrOf] at hc
            subst hc
            simpa [validContentArg] using hce
          have hvf : validFilesArg (.arr xs) = false := by
            cases hval : validFilesArg (.arr xs)
            · rfl
            · rw [hval, hvc] at h; simp at h
          have hall : xs.all fileArgOk = false := by
            unfold validFilesArg at hvf
            simpa [hlen] using hvf
          refine ⟨"all files must be non-empty strings", ?_⟩
          unfold saveChangesCreate
          simp [hlen, hc, hce, hall]
  | undef => exact ⟨"files parameter must be a non-empty array", rfl⟩
  | null => exact ⟨"files parameter must be a non-empty array", rfl⟩
  | bool b => exact ⟨"files parameter must be a non-empty array", rfl⟩
  | num m => exact ⟨"files parameter must be a non-empty array", rfl⟩
  | str s => exact ⟨"files parameter must be a non-empty array", rfl⟩

/-- C5 (as stated, counterexample): in the multi-instance variant a
`save_changes` call with `repo` set and both `files` and `content` absent —
inputs on which `files` is certainly not a non-empty array — does not fail
with an `InvalidArgument` error: it succeeds as a review query and flips the
process-wide reviewed flag to true. -/
theorem C5_repo_query_branch_cex :
    let inst : InstanceConfig :=
      { REPO_NAME := "web-app", PROJECT_PATH := "/srv/web",
        LOCAL_BRANCH := "main", REMOTE_BRANCH := "main" }
    let st : ServerState :=
      { pendingChanges := [], pushHistory := [], changesReviewed := false }
    (save_changes [inst] .undef .undef (.str "web-app") none {} 1 "t" st).1
        = .reviewOk [] 0
      ∧ (save_changes [inst] .undef .undef (.str "web-app") none {} 1 "t" st).2.changesReviewed
          = true
      ∧ validFilesArg .undef = false ∧ validContentArg .undef = false :=
  ⟨rfl, rfl, rfl, rfl⟩

/-- C5 (amended): outside the multi-instance review-query branch (`repo`
truthy with `files` and `content` both absent), every `save_changes` call with
invalid `files` or `content` throws an `InvalidArgument`-style error and
returns the state unchanged — no pending change is created, nothing is
persisted; the single-instance variant does so unconditionally. -/
theorem C5_save_changes_invalid_rejected (multi : List InstanceConfig)
    (files content repo : JsVal) (limit : Option Int) (ctx : ToolContext)
    (now : Int) (ts : String) (st : ServerState)
    (hbranch : (truthy repo && files.isUndef && content.isUndef) = false)
    (hinvalid : (validFilesArg files && validContentArg content) = false) :
    (∃ m, save_changes multi files content repo limit ctx now ts st = (.thrown m, st))
    ∧ ∀ rn pp, ∃ m, save_changes_single files content rn pp now ts st
        = (.thrown m, st) := by
  constructor
  · obtain ⟨m, hm⟩ := saveChangesCreate_invalid (jsOr ctx.REPO_NAME "")
      (jsOr ctx.PROJECT_PATH "") files content now ts st hinvalid
    refine ⟨m, ?_⟩
    unfold save_changes
    simp only [hbranch, Bool.false_eq_true, if_false]
    exact hm
  · intro rn pp
    exact saveChangesCreate_invalid rn pp files content now ts st hinvalid

/-- Witness for `C5_save_changes_invalid_rejected` at a concrete invalid call
(empty `files` array). -/
theorem C5_save_changes_invalid_rejected_witness :
    ∃ m, save_changes [] (.arr []) (.str "c") .undef none {} 0 "t"
        { pendingChanges := [], pushHistory := [], changesReviewed := false }
      = (.thrown m,
         { pendingChanges := [], pushHistory := [], changesReviewed := false }) :=
  (C5_save_changes_invalid_rejected [] (.arr []) (.str "c") .undef none {} 0 "t"
    _ rfl rfl).1

/-- C6: a valid `save_changes` prepends the new entry and truncates to the cap,
so the pending list never exceeds `MAX_PENDING_CHANGES` (50), is ordered
most-recent-first (the new entry is the head), and a save at the cap drops
exactly the oldest (last) entry. -/
theorem C6_pending_cap_fifo (rn pp : String) (xs : List JsVal) (c : String)
    (now : Int) (ts : String) (st : ServerState)
    (hxs : xs ≠ []) (hall : xs.all fileArgOk = true) (hc : c ≠ "") :
    let entry : PendingChange :=
      { id := now, timestamp := ts, repo_name := rn, project_path := pp,
        files := xs.filterMap (fun f => (jsStrOf f).map jsTrim),
        content := jsTrim c, reviewed := false }
    let st1 := (saveChangesCreate rn pp (.arr xs) (.str c) now ts st).2
    st1.pendingChanges = List.take MAX_PENDING_CHANGES (entry :: st.pendingChanges)
    ∧ st1.pendingChanges.length ≤ MAX_PENDING_CHANGES
    ∧ st1.pendingChanges.head? = some entry
    ∧ (st.pendingChanges.length = MAX_PENDING_CHANGES →
        st1.pendingChanges = entry :: st.pendingChanges.dropLast) := by
  intro entry st1
  have hlen : ¬ xs.length = 0 := by simpa using hxs
  have hmain : st1.pendingChanges
      = List.take MAX_PENDING_CHANGES (entry :: st.pendingChanges) := by
    show (saveChangesCreate rn pp (.arr xs) (.str c) now ts st).2.pendingChanges = _
    unfold saveChangesCreate
    simp [hlen, hc, hall, jsStrOf, savePendingChanges, entry]
  refine ⟨hmain, ?_, ?_, ?_⟩
  · rw [hmain]; exact List.length_take_le _ _
  · rw [hmain]; rfl
  · intro hcap
    rw [hmain, List.dropLast_eq_take, hcap]
    rfl

/-- Witness for `C6_pending_cap_fifo` at a concrete save. -/
theorem C6_pending_cap_fifo_witness :
    ((saveChangesCreate "" "" (.arr [.str "a"]) (.str "c") 1 "t"
        { pendingChanges := [], pushHistory := [],
          changesReviewed := false }).2.pendingChanges).length ≤ MAX_PENDING_CHANGES :=
  (C6_pending_cap_fifo "" "" [.str "a"] "c" 1 "t" _
    (List.cons_ne_nil _ _) (by decide) (by decide)).2.1

/-- C7: in multi-instance mode, a `tools/call` to an existing tool that names a
repository absent from the startup table fails with
`Repository not found: <repo>`, while naming a configured repository invokes
the operation with that instance's working directory, branches and repo name
as the tool context. -/
theorem C7_repo_routing (multi : List InstanceConfig) (toolPfx : String)
    (initialized : Bool) (n r : String) (m : ToolMethod)
    (hmulti : multi ≠ []) (hn : n ≠ "") (hr : r ≠ "")
    (hm : serverLookup initialized (actualMethodNameOf toolPfx n)
      = some (.methodProp m)) :
    (multi.find? (fun i => i.REPO_NAME == r) = none →
      toolsCallRoute multi toolPfx initialized (some n) (some r) = .repoNotFound r
      ∧ routeThrownMessage (RouteOutcome.repoNotFound r)
          = some ("Repository not found: " ++ r))
    ∧ ∀ inst, multi.find? (fun i => i.REPO_NAME == r) = some inst →
        toolsCallRoute multi toolPfx initialized (some n) (some r)
          = .invoked m (ctxOfInstance inst)
        ∧ (ctxOfInstance inst).PROJECT_PATH = some inst.PROJECT_PATH
        ∧ (ctxOfInstance inst).LOCAL_BRANCH = some inst.LOCAL_BRANCH
        ∧ (ctxOfInstance inst).REMOTE_BRANCH = some inst.REMOTE_BRANCH
        ∧ (ctxOfInstance inst).REPO_NAME = some inst.REPO_NAME := by
  have hmlen : 0 < multi.length := List.length_pos.mpr hmulti
  constructor
  · intro hfind
    refine ⟨?_, rfl⟩
    unfold toolsCallRoute
    simp [hn, hm, truthyProp, hr, hmlen, hfind]
  · intro inst hfind
    refine ⟨?_, rfl, rfl, rfl, rfl⟩
    unfold toolsCallRoute
    simp [hn, hm, truthyProp, hr, hmlen, hfind]

/-- Witness for `C7_repo_routing`: the spec scenario with one configured
instance `web-app`, probing an unknown and a configured repo name. -/
theorem C7_repo_routing_witness :
    toolsCallRoute [⟨"web-app", "/srv/web", "main", "main", ""⟩] "" true
        (some "git_status") (some "unknown") = .repoNotFound "unknown"
      ∧ toolsCallRoute [⟨"web-app", "/srv/web", "main", "main", ""⟩] "" true
          (some "git_status") (some "web-app")
        = .invoked .git_status (ctxOfInstance ⟨"web-app", "/srv/web", "main", "main", ""⟩) :=
  ⟨((C7_repo_routing [⟨"web-app", "/srv/web", "main", "main", ""⟩] "" true
      "git_status" "unknown" .git_status (List.cons_ne_nil _ _) (by decide) (by decide)
      rfl).1 rfl).1,
   (((C7_repo_routing [⟨"web-app", "/srv/web", "main", "main", ""⟩] "" true
      "git_status" "web-app" .git_status (List.cons_ne_nil _ _) (by decide) (by decide)
      rfl).2 _ rfl).1)⟩

/-- Decoding a list of encoded strings recovers the list. -/
theorem decodeStrList_map (l : List String) : decodeStrList (l.map Json.str) = some l := by
  induction l with
  | nil => rfl
  | cons a l ih => simp [decodeStrList, ih]

/-- Decoding an encoded pending change recovers it. -/
theorem pendingChangeOfJson_toJson (c : PendingChange) :
    pendingChangeOfJson (pendingChangeToJson c) = some c := by
  cases c
  simp [pendingChangeToJson, pendingChangeOfJson, decodeStrList_map]

/-- Decoding an encoded push history entry recovers it. -/
theorem pushEntryOfJson_toJson (p : PushHistoryEntry) :
    pushEntryOfJson (pushEntryToJson p) = some p := by
  cases p with
  | mk id ts rn pp rm lb rb msg sc err code =>
    cases err <;> cases code <;> rfl

/-- Element-wise decoding of an encoded list recovers the list. -/
theorem decodeList_map {α : Type} (dec : Json → Option α) (enc : α → Json)
    (hre : ∀ a, dec (enc a) = some a) (l : List α) :
    decodeList dec (l.map enc) = some l := by
  induction l with
  | nil => rfl
  | cons a l ih => simp [decodeList, hre, ih]

/-- C8: for both persisted files, loading what the save routine wrote restores
the identical ordered in-memory list, and saving again reproduces the
identical file content (load is a right inverse of save). -/
theorem C8_persist_roundtrip (st : ServerState) :
    (loadPendingChanges (savePendingChanges st)).pendingChanges = st.pendingChanges
    ∧ (savePendingChanges (loadPendingChanges (savePendingChanges st))).pendingChangesFile
        = (savePendingChanges st).pendingChangesFile
    ∧ (loadPushHistory (savePushHistory st)).pushHistory = st.pushHistory
    ∧ (savePushHistory (loadPushHistory (savePushHistory st))).pushHistoryFile
        = (savePushHistory st).pushHistoryFile := by
  have hP : (loadPendingChanges (savePendingChanges st)).pendingChanges
      = st.pendingChanges := by
    simp [savePendingChanges, loadPendingChanges,
      decodeList_map pendingChangeOfJson pendingChangeToJson pendingChangeOfJson_toJson]
  have hH : (loadPushHistory (savePushHistory st)).pushHistory = st.pushHistory := by
    simp [savePushHistory, loadPushHistory,
      decodeList_map pushEntryOfJson pushEntryToJson pushEntryOfJson_toJson]
  refine ⟨hP, ?_, hH, ?_⟩
  · have h1 : (savePendingChanges (loadPendingChanges (savePendingChanges st))).pendingChangesFile
        = some (Json.arr ((loadPendingChanges
            (savePendingChanges st)).pendingChanges.map pendingChangeToJson)) := rfl
    rw [h1, hP]
    rfl
  · have h2 : (savePushHistory (loadPushHistory (savePushHistory st))).pushHistoryFile
        = some (Json.arr ((loadPushHistory
            (savePushHistory st)).pushHistory.map pushEntryToJson)) := rfl
    rw [h2, hH]
    rfl

/-- C9: the review gate and the pending list are process-wide: one successful
`get_pending_changes` — whatever repository it names and however it filters —
sets the single `changesReviewed` flag, after which a `git_push` under any
tool context (any configured repository) passes the review gate. -/
theorem C9_review_gate_process_wide (multi : List InstanceConfig)
    (limit offset : Option Int) (repo : Option String) (st : ServerState)
    (hl1 : 1 ≤ limit.getD 1000) (hl2 : limit.getD 1000 ≤ 1000)
    (ho : 0 ≤ offset.getD 0) :
    (get_pending_changes multi limit offset repo st).2.changesReviewed = true
    ∧ ∀ (env : List String → CmdOutcome) (now : Int) (ts msg : String)
        (ctx : ToolContext) (toolPfx : String), msg ≠ "" →
        ((git_push env now ts (some msg) ctx toolPfx
            (get_pending_changes multi limit offset repo st).2).1).isBlocked = false := by
  have hrev : (get_pending_changes multi limit offset repo st).2.changesReviewed = true := by
    unfold get_pending_changes
    rw [if_neg (by simp; omega), if_neg (by simp; omega)]
  refine ⟨hrev, ?_⟩
  intro env now ts msg ctx toolPfx hmsg
  unfold git_push
  simp only [hmsg, hrev, Bool.not_true, Bool.false_and, Bool.false_eq_true, if_false,
    reduceIte]
  split <;> rfl

/-- Witness for `C9_review_gate_process_wide` at a concrete two-repository
configuration. -/
theorem C9_review_gate_process_wide_witness :
    (get_pending_changes
        [⟨"repo-a", "/a", "main", "main", ""⟩, ⟨"repo-b", "/b", "main", "main", ""⟩]
        none none (some "repo-a")
        { pendingChanges := [], pushHistory := [],
          changesReviewed := false }).2.changesReviewed = true :=
  (C9_review_gate_process_wide
    [⟨"repo-a", "/a", "main", "main", ""⟩, ⟨"repo-b", "/b", "main", "main", ""⟩]
    none none (some "repo-a") _ (by decide) (by decide) (by decide)).1

/-- C10 (as stated, counterexample): before the first `initialize` request,
`initialized` *is* a property of the server object (value `false`), yet
`tools/call` with name `initialized` is rejected as `Unknown tool` — the
dispatcher probes truthiness of `this[name]`, not property existence. -/
theorem C10_initialized_property_cex :
    serverLookup false "initialized" = some (.boolProp false)
      ∧ toolsCallRoute [] "" false (some "initialized") none
          = .unknownTool "initialized" :=
  ⟨rfl, rfl⟩

/-- C10 (amended): `tools/call` rejects a name as an unknown tool exactly when
the prefix-stripped name probes a *falsy* member of the server object (a
missing property, or a falsy-valued one such as `initialized` before the first
`initialize`); names of internal methods such as `executeGitCommand`,
`handleRequest` and `start` probe truthy function members, so the dispatcher
accepts the call and invokes the internal method instead of failing. -/
theorem C10_dispatch_truthiness (multi : List InstanceConfig) (toolPfx : String)
    (initialized : Bool) (n : String) (repoArg : Option String) (hn : n ≠ "") :
    (toolsCallRoute multi toolPfx initialized (some n) repoArg = .unknownTool n
      ↔ lookupTruthy initialized (actualMethodNameOf toolPfx n) = false)
    ∧ toolsCallRoute [] "" true (some "executeGitCommand") none
        = .invoked .executeGitCommand {}
    ∧ toolsCallRoute [] "" true (some "handleRequest") none = .invoked .handleRequest {}
    ∧ toolsCallRoute [] "" true (some "start") none = .invoked .start {} := by
  refine ⟨?_, rfl, rfl, rfl⟩
  unfold toolsCallRoute lookupTruthy
  cases hS : serverLookup initialized (actualMethodNameOf toolPfx n) with
  | none => simp [hn, hS]
  | some p =>
    cases htp : truthyProp p with
    | false => simp [hn, hS, htp]
    | true =>
      simp only [hn, hS, htp, if_true, ite_true, iff_false, ne_eq]
      constructor
      · intro hroute
        exfalso
        cases repoArg with
        | none => cases p <;> simp at hroute
        | some r =>
          by_cases hre : r = ""
          · subst hre; cases p <;> simp at hroute
          · rcases Nat.eq_zero_or_pos multi.length with hml | hml
            · cases p <;> simp [hre, hml] at hroute
            · cases hfind : multi.find? (fun i => i.REPO_NAME == r) with
              | some inst => cases p <;> simp [hre, hml, hfind] at hroute
              | none => simp [hre, hml, hfind] at hroute
      · intro hfalse
        simp [htp] at hfalse

/-- Witness for `C10_dispatch_truthiness` at a concrete unknown name. -/
theorem C10_dispatch_truthiness_witness :
    toolsCallRoute [] "" false (some "zzz") none = .unknownTool "zzz" :=
  ((C10_dispatch_truthiness [] "" false "zzz" none (by decide)).1).mpr rfl

end MCPGit
